import Mathlib

/-!
# Verification of the forceclaw-api job-orchestration / agent tool layer

This development shallowly embeds the parts of the `forceclaw-api` TypeScript
service that the specified properties concern:

* the SOQL query tool (`executeQuery` in `src/agent/tools.ts`): the reject /
  auto-limit / clamp pipeline, including a faithful model of the JavaScript
  regular expressions `\bLIMIT\b`, `\bLIMIT\s+(\d+)` and the first-occurrence
  replacement used by the code;
* the write-tool guard (`assertWritableOrg`) and the dispatcher (`executeTool`);
* the two TTL caches (`ComponentCacheService` in `componentCache.ts`,
  `OrgContextService` in `orgContext.ts`) with their `getCached` / `setCache` /
  invalidation logic, modelled over an explicit store and an explicit clock;
* the write handlers (`executeCreateApexClass`, `executeUpdateApexClass`,
  `executeCreateApexTrigger`, `executeUpdateApexTrigger`);
* the multi-org resolver of `handleEventAsync` (`src/routes/slackWebhooks.ts`);
* the agent turn loop (`runAgentLoop`) at the level of its turn/stop-reason
  control flow;
* the org-disconnect handler (`DELETE /api/orgs/:orgId`).

Remote Salesforce calls, the Supabase storage layer, the reasoning model and
Slack delivery are modelled as oracles; every embedded function additionally
returns the list of external `Event`s it performs, so that "no remote call is
made" and "invalidation happens before the result is returned" are provable
statements about the produced trace.

Strings are modelled as `List Char`; character classes (`\s`, `\d`, word
characters) are modelled over the ASCII range actually exercised by the code.
-/

namespace ForceClaw

/-! ## Character classes and basic string machinery

`isWordChar` models the JS regex word character `[A-Za-z0-9_]`, `isSpaceChar`
the ASCII part of `\s`, `isDigitChar` the class `\d`. -/

def isWordChar (c : Char) : Bool := c.isAlphanum || c = '_'

def isSpaceChar (c : Char) : Bool :=
  c = ' ' || c = '\t' || c = '\n' || c = '\r' || c = '\x0b' || c = '\x0c'

def isDigitChar (c : Char) : Bool := '0' ≤ c && c ≤ '9'

/-- `s.trim()` : drop whitespace from both ends. -/
def trimChars (l : List Char) : List Char :=
  ((l.dropWhile isSpaceChar).reverse.dropWhile isSpaceChar).reverse

/-- Case-insensitive match of an (uppercase) literal pattern against the head
of a string, returning the remainder on success.  This models the `i` flag of
the JS regexes for the ASCII letters the patterns consist of. -/
def matchCI : List Char → List Char → Option (List Char)
  | [], l => some l
  | _ :: _, [] => none
  | p :: ps, c :: cs => if c.toUpper = p then matchCI ps cs else none

def limitPat : List Char := ['L', 'I', 'M', 'I', 'T']

def selectPat : List Char := ['S', 'E', 'L', 'E', 'C', 'T']

/-- A word boundary `\b` holds before the current position iff there is no
previous character or the previous character is not a word character. -/
def boundaryBefore : Option Char → Bool
  | none => true
  | some c => !isWordChar c

/-- After a literal match, the right word boundary `\b` holds iff the string
is exhausted or continues with a non-word character. -/
def rightBoundaryOk : Option (List Char) → Bool
  | none => false
  | some [] => true
  | some (c :: _) => !isWordChar c

/-- `\bLIMIT\b` matches at the current position (given the previous
character). -/
def wordHere (prev : Option Char) (l : List Char) : Bool :=
  boundaryBefore prev && rightBoundaryOk (matchCI limitPat l)

/-- `/\bLIMIT\b/i.test(query)` : scan every position. -/
def hasLimitWordAux : Option Char → List Char → Bool
  | prev, [] => wordHere prev []
  | prev, c :: cs => wordHere prev (c :: cs) || hasLimitWordAux (some c) cs

def hasLimitWord (l : List Char) : Bool := hasLimitWordAux none l

/-- Numeric value of a digit run (the `parseInt(..., 10)` of the capture). -/
def digitsVal (ds : List Char) : Nat :=
  ds.foldl (fun a c => a * 10 + (c.toNat - '0'.toNat)) 0

/-- After the keyword has matched, `\s+(\d+)` must follow: a nonempty
whitespace run then a nonempty digit run (both greedy; since the classes are
disjoint no backtracking can produce a different match).  Returns the captured
value and the remainder after the matched span. -/
def afterKeyword (rest1 : List Char) : Option (Nat × List Char) :=
  if (rest1.takeWhile isSpaceChar).isEmpty
      || ((rest1.dropWhile isSpaceChar).takeWhile isDigitChar).isEmpty then none
  else
    some (digitsVal ((rest1.dropWhile isSpaceChar).takeWhile isDigitChar),
      (rest1.dropWhile isSpaceChar).dropWhile isDigitChar)

/-- Try to match `\bLIMIT\s+(\d+)` at the current position. -/
def tryMatchHere (prev : Option Char) (l : List Char) : Option (Nat × List Char) :=
  if boundaryBefore prev then (matchCI limitPat l).bind afterKeyword
  else none

/-- Leftmost match of `\bLIMIT\s+(\d+)` (the semantics of
`query.match(/\bLIMIT\s+(\d+)/i)`): returns the prefix before the match, the
captured value, and the remainder after the match.  The regex cannot match at
the end of the string, so the empty-list position need not be tried. -/
def findLimitNumAux : Option Char → List Char → Option (List Char × Nat × List Char)
  | _, [] => none
  | prev, c :: cs =>
    match tryMatchHere prev (c :: cs) with
    | some (n, rest) => some ([], n, rest)
    | none => (findLimitNumAux (some c) cs).map fun t => (c :: t.1, t.2.1, t.2.2)

def findLimitNum (l : List Char) : Option (List Char × Nat × List Char) :=
  findLimitNumAux none l

/-! ## The query tool (`executeQuery` in `src/agent/tools.ts`)

```ts
const trimmed = soql.trim().toUpperCase();
if (!trimmed.startsWith("SELECT")) return { content: ..., isError: true };
let query = soql.trim();
if (!/\bLIMIT\b/i.test(query)) query += " LIMIT 200";
const limitMatch = query.match(/\bLIMIT\s+(\d+)/i);
if (limitMatch && parseInt(limitMatch[1], 10) > 2000)
  query = query.replace(/\bLIMIT\s+\d+/i, "LIMIT 2000");
const result = await conn.query(query);
```
-/

/-- `soql.trim().toUpperCase().startsWith("SELECT")`. -/
def isSelect (soql : List Char) : Bool :=
  (matchCI selectPat (trimChars soql)).isSome

/-- The query string actually handed to `conn.query`: trim, auto-append
`LIMIT 200` when the word `LIMIT` is absent, clamp the first `LIMIT <n>` span
to `LIMIT 2000` when `n > 2000`. -/
def normalizeQuery (soql : List Char) : List Char :=
  let query := trimChars soql
  let query :=
    if hasLimitWord query then query else query ++ (" LIMIT 200").toList
  match findLimitNum query with
  | some (pre, n, rest) =>
    if 2000 < n then pre ++ ("LIMIT 2000").toList ++ rest else query
  | none => query

structure ToolResult where
  content : String
  isError : Bool
  deriving DecidableEq, Repr

def onlySelectMsg : String :=
  "Only SELECT queries are allowed. INSERT, UPDATE, DELETE, and UPSERT are not supported."

/-- Outcome of `executeQuery` up to the remote call: either the input is
rejected before the connection is touched, or `conn.query` is invoked with the
normalized query string. -/
inductive QueryOutcome
  | rejected (r : ToolResult)
  | executed (query : List Char)
  deriving DecidableEq, Repr

def executeQuery (soql : List Char) : QueryOutcome :=
  if isSelect soql then QueryOutcome.executed (normalizeQuery soql)
  else QueryOutcome.rejected ⟨onlySelectMsg, true⟩

/-! ### Lemmas about the `LIMIT` regexes -/

lemma not_word_of_space {c : Char} (h : isSpaceChar c = true) : isWordChar c = false := by
  simp only [isSpaceChar, Bool.or_eq_true, decide_eq_true_eq] at h
  rcases h with (((((h | h) | h) | h) | h) | h) <;> subst h <;> decide

/-- Splitting a case-insensitive literal match across an append whose junction
character is a space that occurs nowhere in the pattern: the whole pattern must
already match inside the left part. -/
lemma matchCI_append_space {p : List Char} (hp : ' ' ∉ p) :
    ∀ {A S rest : List Char}, matchCI p (A ++ ' ' :: S) = some rest →
      ∃ r, matchCI p A = some r ∧ rest = r ++ ' ' :: S := by
  induction p with
  | nil =>
    intro A S rest h
    simp only [matchCI, Option.some.injEq] at h
    exact ⟨A, rfl, h.symm⟩
  | cons x ps ih =>
    intro A S rest h
    cases A with
    | nil =>
      exfalso
      simp only [List.nil_append, matchCI] at h
      split at h
      case isTrue hx =>
        have hx' : x = ' ' := by rw [← hx]; decide
        rw [hx'] at hp
        exact hp (List.mem_cons_self _ _)
      case isFalse => exact absurd h (by simp)
    | cons a A' =>
      simp only [List.cons_append, matchCI] at h
      by_cases ha : a.toUpper = x
      · rw [if_pos ha] at h
        obtain ⟨r, hr, hrest⟩ := ih (fun hm => hp (List.mem_cons_of_mem _ hm)) h
        exact ⟨r, by simp [matchCI, ha, hr], hrest⟩
      · rw [if_neg ha] at h; exact absurd h (by simp)

lemma space_not_mem_limitPat : ' ' ∉ limitPat := by decide

/-- If `\bLIMIT\s+(\d+)` matches at a position, then `\bLIMIT\b` matches at
that position (the whitespace after the keyword is a right word boundary). -/
lemma wordHere_of_tryMatchHere {prev : Option Char} {l : List Char} {x : Nat × List Char}
    (h : tryMatchHere prev l = some x) : wordHere prev l = true := by
  unfold tryMatchHere at h
  cases hb : boundaryBefore prev with
  | false => rw [hb] at h; simp at h
  | true =>
    rw [hb] at h
    simp only [if_true] at h
    cases hm : matchCI limitPat l with
    | none => rw [hm] at h; simp at h
    | some rest1 =>
      rw [hm, Option.some_bind] at h
      unfold afterKeyword at h
      by_cases hws : (rest1.takeWhile isSpaceChar).isEmpty || (((rest1.dropWhile isSpaceChar).takeWhile isDigitChar)).isEmpty
      · rw [if_pos hws] at h; exact absurd h (by simp)
      · unfold wordHere
        rw [hb, hm]
        simp only [Bool.true_and]
        cases rest1 with
        | nil => simp at hws
        | cons c cs =>
          simp only [Bool.or_eq_true, List.isEmpty_iff] at hws
          push_neg at hws
          obtain ⟨hws1, _⟩ := hws
          cases hc : isSpaceChar c with
          | false => simp [List.takeWhile_cons, hc] at hws1
          | true => simp [rightBoundaryOk, not_word_of_space hc]

/-- If the left part of an append contains no `\bLIMIT\b` occurrence at this
position and the junction character is a space, `\bLIMIT\s+\d+` cannot match
at this position either (any such match would put a `\bLIMIT\b` occurrence
inside the left part). -/
lemma tryMatchHere_append_none {prev : Option Char} {A S : List Char}
    (h : wordHere prev A = false) :
    tryMatchHere prev (A ++ ' ' :: S) = none := by
  cases ht : tryMatchHere prev (A ++ ' ' :: S) with
  | none => rfl
  | some x =>
    exfalso
    unfold tryMatchHere at ht
    cases hb : boundaryBefore prev with
    | false => rw [hb] at ht; simp at ht
    | true =>
      rw [hb] at ht
      simp only [if_true] at ht
      cases hm : matchCI limitPat (A ++ ' ' :: S) with
      | none => rw [hm] at ht; simp at ht
      | some rest1 =>
        rw [hm, Option.some_bind] at ht
        unfold afterKeyword at ht
        by_cases hws : (rest1.takeWhile isSpaceChar).isEmpty || (((rest1.dropWhile isSpaceChar).takeWhile isDigitChar)).isEmpty
        · rw [if_pos hws] at ht; exact absurd ht (by simp)
        · obtain ⟨r, hr, hrest⟩ := matchCI_append_space space_not_mem_limitPat hm
          unfold wordHere at h
          rw [hb, hr] at h
          simp only [Bool.true_and] at h
          simp only [Bool.or_eq_true, List.isEmpty_iff] at hws
          push_neg at hws
          obtain ⟨hws1, _⟩ := hws
          cases r with
          | nil => simp [rightBoundaryOk] at h
          | cons c cs =>
            simp only [List.cons_append] at hrest
            subst hrest
            cases hc : isSpaceChar c with
            | false => simp [List.takeWhile_cons, hc] at hws1
            | true => simp [rightBoundaryOk, not_word_of_space hc] at h

/-- A successful `\bLIMIT\s+(\d+)` search implies `\bLIMIT\b` is present. -/
lemma hasLimitWordAux_of_findLimitNumAux {prev : Option Char} {l : List Char}
    {t : List Char × Nat × List Char}
    (h : findLimitNumAux prev l = some t) : hasLimitWordAux prev l = true := by
  induction l generalizing prev t with
  | nil => simp [findLimitNumAux] at h
  | cons c cs ih =>
    unfold findLimitNumAux at h
    cases ht : tryMatchHere prev (c :: cs) with
    | some x =>
      unfold hasLimitWordAux
      rw [wordHere_of_tryMatchHere ht]
      simp
    | none =>
      rw [ht] at h
      simp only [Option.map_eq_some'] at h
      obtain ⟨t', ht', _⟩ := h
      unfold hasLimitWordAux
      rw [ih ht']
      simp

/-- When the word `LIMIT` is absent from `A`, the first `\bLIMIT\s+(\d+)`
match in `A ++ " LIMIT 200"` is exactly the appended clause. -/
lemma findLimitNumAux_append {prev : Option Char} {A : List Char}
    (h : hasLimitWordAux prev A = false) :
    findLimitNumAux prev (A ++ (" LIMIT 200").toList) = some (A ++ [' '], 200, []) := by
  induction A generalizing prev with
  | nil =>
    have hsuffix : (" LIMIT 200").toList = ' ' :: ("LIMIT 200").toList := rfl
    rw [List.nil_append, hsuffix]
    unfold findLimitNumAux
    have hnone : tryMatchHere prev (' ' :: ("LIMIT 200").toList) = none := by
      unfold tryMatchHere
      cases hb : boundaryBefore prev with
      | false => simp
      | true => simp [matchCI, limitPat]
    rw [hnone]
    have : findLimitNumAux (some ' ') (("LIMIT 200").toList) = some ([], 200, []) := by decide
    rw [this]
    rfl
  | cons a A' ih =>
    unfold hasLimitWordAux at h
    simp only [Bool.or_eq_false_iff] at h
    obtain ⟨hw, hrec⟩ := h
    have hsuffix : (" LIMIT 200").toList = ' ' :: ("LIMIT 200").toList := rfl
    have hcons : (a :: A') ++ (" LIMIT 200").toList = a :: (A' ++ (" LIMIT 200").toList) := rfl
    rw [hcons]
    unfold findLimitNumAux
    have hnone : tryMatchHere prev (a :: (A' ++ (" LIMIT 200").toList)) = none := by
      have : a :: (A' ++ (" LIMIT 200").toList) = (a :: A') ++ ' ' :: ("LIMIT 200").toList := by
        rw [hsuffix] at hcons ⊢; exact hcons.symm
      rw [this]
      exact tryMatchHere_append_none hw
    rw [hnone, ih hrec]
    rfl

/-! ### C2 / C3 : the query-limit policy and the SELECT-only gate -/

/-- C2: for every query string accepted by the query tool, the executed
query's limit is: the default cap of 200 appended when no `LIMIT` keyword is
present; exactly 2000 when the (first) present `LIMIT n` has `n > 2000`; and
the query is passed through unchanged (so the original value is preserved)
when the present `LIMIT n` has `n ≤ 2000`. -/
theorem query_limit_policy (soql : List Char) (h : isSelect soql = true) :
    (hasLimitWord (trimChars soql) = false →
      executeQuery soql
        = QueryOutcome.executed (trimChars soql ++ (" LIMIT 200").toList)) ∧
    (∀ pre n rest, findLimitNum (trimChars soql) = some (pre, n, rest) →
      (2000 < n →
        executeQuery soql
          = QueryOutcome.executed (pre ++ ("LIMIT 2000").toList ++ rest)) ∧
      (n ≤ 2000 →
        executeQuery soql = QueryOutcome.executed (trimChars soql))) := by
  have hexec : executeQuery soql = QueryOutcome.executed (normalizeQuery soql) := by
    unfold executeQuery; rw [if_pos h]
  refine ⟨?_, ?_⟩
  · intro h1
    have hfind : findLimitNum (trimChars soql ++ (" LIMIT 200").toList)
        = some (trimChars soql ++ [' '], 200, []) := findLimitNumAux_append h1
    rw [hexec]
    unfold normalizeQuery
    simp only [h1, Bool.false_eq_true, if_false, hfind]
    norm_num
  · intro pre n rest hf
    have hword : hasLimitWord (trimChars soql) = true :=
      hasLimitWordAux_of_findLimitNumAux hf
    constructor
    · intro hn
      rw [hexec]
      unfold normalizeQuery
      simp only [hword, if_true, hf, hn, if_pos]
    · intro hn
      rw [hexec]
      unfold normalizeQuery
      simp only [hword, if_true, hf, if_neg (not_lt.mpr hn)]

/-- Witness for `query_limit_policy` at a concrete accepted query. -/
theorem query_limit_policy_witness :
    isSelect ("SELECT Id FROM Account").toList = true ∧
    ((hasLimitWord (trimChars ("SELECT Id FROM Account").toList) = false →
      executeQuery ("SELECT Id FROM Account").toList
        = QueryOutcome.executed
            (trimChars ("SELECT Id FROM Account").toList ++ (" LIMIT 200").toList)) ∧
    (∀ pre n rest,
      findLimitNum (trimChars ("SELECT Id FROM Account").toList) = some (pre, n, rest) →
      (2000 < n →
        executeQuery ("SELECT Id FROM Account").toList
          = QueryOutcome.executed (pre ++ ("LIMIT 2000").toList ++ rest)) ∧
      (n ≤ 2000 →
        executeQuery ("SELECT Id FROM Account").toList
          = QueryOutcome.executed (trimChars ("SELECT Id FROM Account").toList)))) :=
  ⟨by decide, query_limit_policy _ (by decide)⟩

/-- C3: an input that does not begin (after trimming, case-insensitively)
with `SELECT` is answered with an error result and the remote connection is
never invoked for it. -/
theorem query_reject_non_select (soql : List Char) (h : isSelect soql = false) :
    executeQuery soql = QueryOutcome.rejected ⟨onlySelectMsg, true⟩ ∧
    ∀ q, executeQuery soql ≠ QueryOutcome.executed q := by
  have : executeQuery soql = QueryOutcome.rejected ⟨onlySelectMsg, true⟩ := by
    unfold executeQuery; rw [h]; simp
  exact ⟨this, fun q hq => by rw [this] at hq; exact QueryOutcome.noConfusion hq⟩

/-- Witness for `query_reject_non_select` at a concrete non-SELECT input. -/
theorem query_reject_non_select_witness :
    isSelect ("DELETE FROM Account").toList = false ∧
    executeQuery ("DELETE FROM Account").toList
      = QueryOutcome.rejected ⟨onlySelectMsg, true⟩ :=
  ⟨by decide, (query_reject_non_select _ (by decide)).1⟩

/-! ## External effects

Every embedded effectful function returns, besides its value and the updated
cache state, the list of external `Event`s it performed, in program order.
Responses of the external world (Salesforce, the Supabase storage layer) are
supplied by oracles, so the embedding is a function of the program text and
of an arbitrary environment behaviour. -/

inductive Event
  | cacheSelect (table orgId key : String)
  | cacheUpsert (table orgId key : String)
  | cacheDelete (table orgId key : String)
  | soqlQuery (q : String)
  | toolingQuery (q : String)
  | toolingCreate (objType name : String)
  | toolingUpdate (objType recId : String)
  | describeCall (objectName : String)
  | restPost (url : String)
  | slackReply (text : String)
  | jobStatus (status : String)
  | modelCall (turn : Nat)
  | toolExec (turn : Nat)
  | checkpoint (turn : Nat)
  deriving DecidableEq, Repr

/-- Calls that reach the remote Salesforce org (as opposed to the cache
storage layer). -/
def Event.isRemote : Event → Bool
  | .soqlQuery _ | .toolingQuery _ | .toolingCreate _ _
  | .toolingUpdate _ _ | .describeCall _ | .restPost _ => true
  | _ => false

/-! ## The two TTL caches

Both `org_metadata_cache` and `org_component_cache` rows carry
`(org_id, cache_key, data, fetched_at, ttl_seconds)` with a unique composite
key `(org_id, cache_key)`; a store is modelled as a map from that composite
key to the entry.  `fetched_at` is in epoch milliseconds (the value of
`Date.now()` / `new Date().toISOString()`), `ttl_seconds` in seconds. -/

structure CacheEntry (α : Type) where
  data : α
  fetchedAt : Nat
  ttlSeconds : Nat
  deriving DecidableEq, Repr

def Store (α : Type) := String → String → Option (CacheEntry α)

/-- The validity check shared by both `getCached` implementations:
`expiresAt = fetched_at + ttl_seconds * 1000`, and the entry is served iff
`Date.now() ≤ expiresAt` (the code treats `now > expiresAt` as expired). -/
def getCachedAt {α : Type} (store : Store α) (orgId key : String) (now : Nat) :
    Option α :=
  match store orgId key with
  | none => none
  | some e => if e.fetchedAt + e.ttlSeconds * 1000 < now then none else some e.data

def upsertAt {α : Type} (store : Store α) (orgId key : String) (d : α)
    (now ttl : Nat) : Store α :=
  fun o k => if o = orgId ∧ k = key then some ⟨d, now, ttl⟩ else store o k

def deleteAt {α : Type} (store : Store α) (orgId key : String) : Store α :=
  fun o k => if o = orgId ∧ k = key then none else store o k

/-! ## Records fetched from Salesforce -/

structure ApexClassRec where
  id : String
  name : String
  body : String
  deriving DecidableEq, Repr

structure ApexTriggerRec where
  id : String
  name : String
  body : String
  tableEnumOrId : String
  deriving DecidableEq, Repr

structure ApexClassSummary where
  id : String
  name : String
  lengthWithoutComments : Nat
  deriving DecidableEq, Repr

/-- Payload of an `org_component_cache` row.  The table stores differently
shaped JSON blobs under key ranges `apex_class:*`, `apex_trigger:*`, `flow:*`,
`lwc:*`; the source reads them back through unchecked `as` casts. -/
inductive CompData
  | apexClass (r : ApexClassRec)
  | apexTrigger (r : ApexTriggerRec)
  deriving DecidableEq, Repr

/-- The unchecked `cached as { id; name; body }` cast of `getApexClassBody`.
The code maintains the invariant that `apex_class:*` keys hold class records,
so the mismatch arm is never exercised. -/
def castApexClass : CompData → ApexClassRec
  | .apexClass r => r
  | _ => ⟨"", "", ""⟩

/-- The unchecked cast of `getApexTriggerBody`. -/
def castApexTrigger : CompData → ApexTriggerRec
  | .apexTrigger r => r
  | _ => ⟨"", "", "", ""⟩

/-- Result of a `conn.tooling.create` / `conn.tooling.update` call. -/
structure SaveError where
  statusCode : Option String
  message : String
  fields : Option (List String)
  deriving DecidableEq, Repr

structure SaveResult where
  success : Bool
  resId : String
  errors : List SaveError
  deriving DecidableEq, Repr

/-- Responses of the remote Salesforce org.  Formatted outputs of the plain
read tools are abstracted as opaque strings produced by the oracle; the
claims under verification only concern whether and with which arguments the
remote calls happen. -/
structure SfOracle where
  apexClassByName : String → Option ApexClassRec
  apexTriggerByName : String → Option ApexTriggerRec
  apexClassList : List ApexClassSummary
  createRes : String → String → SaveResult
  updateRes : String → String → SaveResult
  queryOutput : String → String
  readOutput : String → String
  testOutput : List String → String
  testFailures : List String → Nat

/-- Behaviour of the Supabase storage layer: which upserts / deletes fail
(arguments: table, cache key).  The services log such failures and return
normally. -/
structure StorageOracle where
  upsertFails : String → String → Bool
  deleteFails : String → String → Bool

/-- The mutable cache state threaded through tool execution.  Only the
`apex_classes` key of `org_metadata_cache` is given a typed payload here;
the other inventory keys (`objects`, `flows`, `permission_sets`) behave
identically and are not needed by any claim. -/
structure SystemState where
  metaStore : Store (List ApexClassSummary)
  compStore : Store CompData

/-- Fixed execution context of one tool run: the org the service instances
were constructed with, the oracles, and the current clock value. -/
structure Ctx where
  orgId : String
  sf : SfOracle
  storage : StorageOracle
  now : Nat

def COMPONENT_TTL : Nat := 3600

def TTL_apex_classes : Nat := 21600

/-- `NAME_REGEX = /^[a-zA-Z_][a-zA-Z0-9_]*$/` -/
def isNameStart (c : Char) : Bool := c.isAlpha || c = '_'

def isNameChar (c : Char) : Bool := c.isAlphanum || c = '_'

def validName (s : String) : Bool :=
  match s.toList with
  | [] => false
  | c :: cs => isNameStart c && cs.all isNameChar

def invalidNameMsg (label name : String) : String :=
  "Invalid " ++ label ++ " name: \"" ++ name
    ++ "\". Names must start with a letter or underscore and contain only letters, numbers, and underscores."

/-- `validateName` of `componentCache.ts`: throws on a name that fails the
strict identifier pattern. -/
def validateName (name label : String) : Except String Unit :=
  if validName name then Except.ok ()
  else Except.error (invalidNameMsg label name)

namespace ComponentCacheService

/-- `ComponentCacheService.getCached`: a single select on
`org_component_cache` by `(org_id, cache_key)`, returning the payload iff the
entry exists and is not expired. -/
def getCached (ctx : Ctx) (s : SystemState) (key : String) :
    Option CompData × List Event :=
  (getCachedAt s.compStore ctx.orgId key ctx.now,
    [Event.cacheSelect "org_component_cache" ctx.orgId key])

/-- `ComponentCacheService.setCache`: upsert with `fetched_at = now` and
`ttl_seconds = COMPONENT_TTL`; a storage error is only logged, the method
returns normally. -/
def setCache (ctx : Ctx) (s : SystemState) (key : String) (d : CompData) :
    SystemState × List Event :=
  (if ctx.storage.upsertFails "org_component_cache" key then s
   else { s with
            compStore := upsertAt s.compStore ctx.orgId key d ctx.now COMPONENT_TTL },
   [Event.cacheUpsert "org_component_cache" ctx.orgId key])

/-- `ComponentCacheService.invalidateComponent`: delete the
`(org_id, type:name)` row; a storage error is only logged, the method returns
normally. -/
def invalidateComponent (ctx : Ctx) (s : SystemState) (typ name : String) :
    SystemState × List Event :=
  (if ctx.storage.deleteFails "org_component_cache" (typ ++ ":" ++ name) then s
   else { s with compStore := deleteAt s.compStore ctx.orgId (typ ++ ":" ++ name) },
   [Event.cacheDelete "org_component_cache" ctx.orgId (typ ++ ":" ++ name)])

/-- `ComponentCacheService.getApexClassBody`: validate the name, serve from
the cache when fresh, otherwise fetch via the Tooling API (throwing a
not-found error on an empty result) and upsert the fetched record. -/
def getApexClassBody (ctx : Ctx) (s : SystemState) (name : String) :
    Except String ApexClassRec × SystemState × List Event :=
  match validateName name "Apex class" with
  | Except.error e => (Except.error e, s, [])
  | Except.ok _ =>
    let key := "apex_class:" ++ name
    let r0 := getCached ctx s key
    match r0.1 with
    | some d => (Except.ok (castApexClass d), s, r0.2)
    | none =>
      let q := "SELECT Id, Name, Body FROM ApexClass WHERE Name = '" ++ name ++ "' LIMIT 1"
      match ctx.sf.apexClassByName name with
      | none =>
        (Except.error ("Apex class not found: \"" ++ name ++ "\". Check the name and try again."),
          s, r0.2 ++ [Event.toolingQuery q])
      | some rec0 =>
        let r1 := setCache ctx s key (CompData.apexClass rec0)
        (Except.ok rec0, r1.1, r0.2 ++ [Event.toolingQuery q] ++ r1.2)

/-- `ComponentCacheService.getApexTriggerBody`: same shape for triggers. -/
def getApexTriggerBody (ctx : Ctx) (s : SystemState) (name : String) :
    Except String ApexTriggerRec × SystemState × List Event :=
  match validateName name "Apex trigger" with
  | Except.error e => (Except.error e, s, [])
  | Except.ok _ =>
    let key := "apex_trigger:" ++ name
    let r0 := getCached ctx s key
    match r0.1 with
    | some d => (Except.ok (castApexTrigger d), s, r0.2)
    | none =>
      let q := "SELECT Id, Name, Body, TableEnumOrId FROM ApexTrigger WHERE Name = '" ++ name ++ "' LIMIT 1"
      match ctx.sf.apexTriggerByName name with
      | none =>
        (Except.error ("Apex trigger not found: \"" ++ name ++ "\". Check the name and try again."),
          s, r0.2 ++ [Event.toolingQuery q])
      | some rec0 =>
        let r1 := setCache ctx s key (CompData.apexTrigger rec0)
        (Except.ok rec0, r1.1, r0.2 ++ [Event.toolingQuery q] ++ r1.2)

end ComponentCacheService

namespace OrgContextService

/-- `OrgContextService.getCached`: the same validity check against
`org_metadata_cache`. -/
def getCached (ctx : Ctx) (s : SystemState) (key : String) :
    Option (List ApexClassSummary) × List Event :=
  (getCachedAt s.metaStore ctx.orgId key ctx.now,
    [Event.cacheSelect "org_metadata_cache" ctx.orgId key])

/-- `OrgContextService.setCache` with an explicit per-key TTL. -/
def setCache (ctx : Ctx) (s : SystemState) (key : String)
    (d : List ApexClassSummary) (ttl : Nat) : SystemState × List Event :=
  (if ctx.storage.upsertFails "org_metadata_cache" key then s
   else { s with metaStore := upsertAt s.metaStore ctx.orgId key d ctx.now ttl },
   [Event.cacheUpsert "org_metadata_cache" ctx.orgId key])

/-- `OrgContextService.getApexClasses`: the inventory-cache read used here as
the representative inventory getter (`getObjects` / `getFlows` /
`getPermissionSets` differ only in query string, payload shape and TTL). -/
def getApexClasses (ctx : Ctx) (s : SystemState) :
    List ApexClassSummary × SystemState × List Event :=
  let r0 := getCached ctx s "apex_classes"
  match r0.1 with
  | some d => (d, s, r0.2)
  | none =>
    let q := "SELECT Id, Name, LengthWithoutComments FROM ApexClass WHERE NamespacePrefix = null ORDER BY Name LIMIT 1000"
    let classes := ctx.sf.apexClassList
    let r1 := setCache ctx s "apex_classes" classes TTL_apex_classes
    (classes, r1.1, r0.2 ++ [Event.soqlQuery q] ++ r1.2)

/-- Modelled from the spec: `OrgContextService.invalidateCache` is called by
the write tools (`orgContext.invalidateCache("apex_classes")`) but its
definition is not among the available sources of `orgContext.ts`.  Per the
spec, on a successful write "the relevant cache entries" are invalidated,
i.e. the inventory entry for the written component kind is deleted; like the
component-cache invalidation, a storage error is only logged. -/
def invalidateCache (ctx : Ctx) (s : SystemState) (key : String) :
    SystemState × List Event :=
  (if ctx.storage.deleteFails "org_metadata_cache" key then s
   else { s with metaStore := deleteAt s.metaStore ctx.orgId key },
   [Event.cacheDelete "org_metadata_cache" ctx.orgId key])

end OrgContextService

/-! ## The tool registry, the write guard and `executeTool`
(`src/agent/tools.ts`) -/

/-- The `toolModes` map: `'all'` = available in every org, `'development'` =
sandbox/dev only. -/
def toolModes : List (String × String) :=
  [("query_salesforce", "all"),
   ("describe_object", "all"),
   ("list_objects", "all"),
   ("list_flows", "all"),
   ("list_apex_classes", "all"),
   ("get_apex_class_body", "development"),
   ("get_apex_trigger_body", "development"),
   ("get_flow_definition", "development"),
   ("list_lwc_bundles", "all"),
   ("get_lwc_source", "development"),
   ("run_apex_tests", "development"),
   ("get_code_coverage", "development"),
   ("create_apex_class", "development"),
   ("update_apex_class", "development"),
   ("create_apex_trigger", "development"),
   ("update_apex_trigger", "development")]

def toolMode (name : String) : Option String :=
  (toolModes.find? (fun p => p.1 = name)).map (fun p => p.2)

/-- The names of the entries of `toolDefinitions`, in catalog order (the
descriptions and parameter schemas carry no behaviour). -/
def toolDefinitionNames : List String :=
  ["query_salesforce", "describe_object", "list_objects", "list_flows",
   "list_apex_classes", "get_apex_class_body", "get_apex_trigger_body",
   "get_flow_definition", "list_lwc_bundles", "get_lwc_source",
   "run_apex_tests", "get_code_coverage", "create_apex_class",
   "update_apex_class", "create_apex_trigger", "update_apex_trigger"]

/-- `getToolsForOrg`: production orgs get only `'all'` tools, every other org
type gets the whole catalog. -/
def getToolsForOrg (orgType : String) : List String :=
  if ¬(orgType = "production") then toolDefinitionNames
  else toolDefinitionNames.filter (fun t => toolMode t = some "all")

def writeBlockedMsg : String :=
  "WRITE BLOCKED: This is a production org. Apex class and trigger writes are only allowed in sandbox or developer orgs. Please connect a sandbox org to make changes."

/-- `assertWritableOrg`: throws for production orgs. -/
def assertWritableOrg (orgType : String) : Except String Unit :=
  if orgType = "production" then Except.error writeBlockedMsg else Except.ok ()

/-- `e.statusCode || "ERROR"` (an empty string is falsy in JS). -/
def statusCodeOr : Option String → String
  | some s => if s = "" then "ERROR" else s
  | none => "ERROR"

/-- `e.fields ? \x28fields: ...\x29 : ""` (an empty array is truthy in JS). -/
def fieldsSuffix : Option (List String) → String
  | some fs => " (fields: " ++ String.intercalate ", " fs ++ ")"
  | none => ""

def formatSaveErrors (errors : List SaveError) : String :=
  if errors.isEmpty then "Unknown error"
  else
    String.intercalate "\n"
      (errors.map fun e => statusCodeOr e.statusCode ++ ": " ++ e.message ++ fieldsSuffix e.fields)

/-- `executeCreateApexClass`: guard, remote create, error formatting on
failure, cache invalidation (the source awaits the two invalidations with
`Promise.all`; they are listed in source order) then success. -/
def executeCreateApexClass (ctx : Ctx) (s : SystemState)
    (className _body : String) (orgType : String) :
    Except String ToolResult × SystemState × List Event :=
  match assertWritableOrg orgType with
  | Except.error e => (Except.error e, s, [])
  | Except.ok _ =>
    let res := ctx.sf.createRes "ApexClass" className
    let ev1 := [Event.toolingCreate "ApexClass" className]
    if res.success then
      let r1 := OrgContextService.invalidateCache ctx s "apex_classes"
      let r2 := ComponentCacheService.invalidateComponent ctx r1.1 "apex_class" className
      (Except.ok ⟨"Apex class \"" ++ className ++ "\" created successfully.\nId: " ++ res.resId, false⟩,
        r2.1, ev1 ++ r1.2 ++ r2.2)
    else
      (Except.ok ⟨"Failed to create Apex class \"" ++ className
          ++ "\".\n\nCompile errors:\n" ++ formatSaveErrors res.errors, true⟩,
        s, ev1)

/-- `executeUpdateApexClass`: guard, lookup by name (through the component
cache, which validates the name and may throw not-found), remote update,
error formatting on failure, cache invalidation then success. -/
def executeUpdateApexClass (ctx : Ctx) (s : SystemState)
    (className _body : String) (orgType : String) :
    Except String ToolResult × SystemState × List Event :=
  match assertWritableOrg orgType with
  | Except.error e => (Except.error e, s, [])
  | Except.ok _ =>
    let r0 := ComponentCacheService.getApexClassBody ctx s className
    match r0.1 with
    | Except.error e => (Except.error e, r0.2.1, r0.2.2)
    | Except.ok existing =>
      let res := ctx.sf.updateRes "ApexClass" existing.id
      let ev1 := r0.2.2 ++ [Event.toolingUpdate "ApexClass" existing.id]
      if res.success then
        let r1 := OrgContextService.invalidateCache ctx r0.2.1 "apex_classes"
        let r2 := ComponentCacheService.invalidateComponent ctx r1.1 "apex_class" className
        (Except.ok ⟨"Apex class \"" ++ className ++ "\" updated successfully.", false⟩,
          r2.1, ev1 ++ r1.2 ++ r2.2)
      else
        (Except.ok ⟨"Failed to update Apex class \"" ++ className
            ++ "\".\n\nCompile errors:\n" ++ formatSaveErrors res.errors, true⟩,
          r0.2.1, ev1)

/-- `executeCreateApexTrigger`: like the class create; on success only the
component-cache entry is invalidated. -/
def executeCreateApexTrigger (ctx : Ctx) (s : SystemState)
    (triggerName sobjectName _body : String) (orgType : String) :
    Except String ToolResult × SystemState × List Event :=
  match assertWritableOrg orgType with
  | Except.error e => (Except.error e, s, [])
  | Except.ok _ =>
    let res := ctx.sf.createRes "ApexTrigger" triggerName
    let ev1 := [Event.toolingCreate "ApexTrigger" triggerName]
    if res.success then
      let r2 := ComponentCacheService.invalidateComponent ctx s "apex_trigger" triggerName
      (Except.ok ⟨"Apex trigger \"" ++ triggerName ++ "\" on " ++ sobjectName
          ++ " created successfully.\nId: " ++ res.resId, false⟩,
        r2.1, ev1 ++ r2.2)
    else
      (Except.ok ⟨"Failed to create Apex trigger \"" ++ triggerName
          ++ "\".\n\nCompile errors:\n" ++ formatSaveErrors res.errors, true⟩,
        s, ev1)

/-- `executeUpdateApexTrigger`. -/
def executeUpdateApexTrigger (ctx : Ctx) (s : SystemState)
    (triggerName _body : String) (orgType : String) :
    Except String ToolResult × SystemState × List Event :=
  match assertWritableOrg orgType with
  | Except.error e => (Except.error e, s, [])
  | Except.ok _ =>
    let r0 := ComponentCacheService.getApexTriggerBody ctx s triggerName
    match r0.1 with
    | Except.error e => (Except.error e, r0.2.1, r0.2.2)
    | Except.ok existing =>
      let res := ctx.sf.updateRes "ApexTrigger" existing.id
      let ev1 := r0.2.2 ++ [Event.toolingUpdate "ApexTrigger" existing.id]
      if res.success then
        let r2 := ComponentCacheService.invalidateComponent ctx r0.2.1 "apex_trigger" triggerName
        (Except.ok ⟨"Apex trigger \"" ++ triggerName ++ "\" updated successfully.", false⟩,
          r2.1, ev1 ++ r2.2)
      else
        (Except.ok ⟨"Failed to update Apex trigger \"" ++ triggerName
            ++ "\".\n\nCompile errors:\n" ++ formatSaveErrors res.errors, true⟩,
          r0.2.1, ev1)

/-- The fields of the tool-call `input` object that the handlers read. -/
structure ToolInput where
  soql : String := ""
  class_name : String := ""
  trigger_name : String := ""
  sobject_name : String := ""
  body : String := ""
  object_name : String := ""
  test_class_names : List String := []

def formatListApexClasses (classes : List ApexClassSummary) : ToolResult :=
  if classes.isEmpty then ⟨"No custom Apex classes found in this org.", false⟩
  else
    ⟨"Apex Classes (" ++ toString classes.length ++ "):\n"
      ++ String.join (classes.map fun c =>
          "  - " ++ c.name ++ " (" ++ toString c.lengthWithoutComments ++ " chars)\n"),
      false⟩

/-- The `switch (name)` body of `executeTool`: runs inside the `try` block.
The plain read-only paths whose cache behaviour duplicates the ones already
embedded (`list_objects`, `list_flows`, `get_flow_definition`,
`list_lwc_bundles`, `get_lwc_source`) have their formatted output abstracted
by the oracle; no claim concerns them. -/
def dispatchTool (name : String) (input : ToolInput) (ctx : Ctx)
    (s : SystemState) (orgType : String) :
    Except String ToolResult × SystemState × List Event :=
  match name with
  | "query_salesforce" =>
    match executeQuery input.soql.toList with
    | QueryOutcome.rejected r => (Except.ok r, s, [])
    | QueryOutcome.executed q =>
      (Except.ok ⟨ctx.sf.queryOutput (String.mk q), false⟩, s,
        [Event.soqlQuery (String.mk q)])
  | "describe_object" =>
    (Except.ok ⟨ctx.sf.readOutput ("describe_object:" ++ input.object_name), false⟩,
      s, [Event.describeCall input.object_name])
  | "list_objects" | "list_flows" =>
    (Except.ok ⟨ctx.sf.readOutput name, false⟩, s, [])
  | "list_apex_classes" =>
    let r := OrgContextService.getApexClasses ctx s
    (Except.ok (formatListApexClasses r.1), r.2.1, r.2.2)
  | "get_apex_class_body" =>
    let r := ComponentCacheService.getApexClassBody ctx s input.class_name
    match r.1 with
    | Except.error e => (Except.error e, r.2.1, r.2.2)
    | Except.ok d =>
      (Except.ok ⟨"Apex Class: " ++ d.name ++ " (Id: " ++ d.id
          ++ ")\n\n```apex\n" ++ d.body ++ "\n```", false⟩, r.2.1, r.2.2)
  | "get_apex_trigger_body" =>
    let r := ComponentCacheService.getApexTriggerBody ctx s input.trigger_name
    match r.1 with
    | Except.error e => (Except.error e, r.2.1, r.2.2)
    | Except.ok d =>
      (Except.ok ⟨"Apex Trigger: " ++ d.name ++ " on " ++ d.tableEnumOrId
          ++ " (Id: " ++ d.id ++ ")\n\n```apex\n" ++ d.body ++ "\n```", false⟩,
        r.2.1, r.2.2)
  | "get_flow_definition" | "list_lwc_bundles" | "get_lwc_source" =>
    (Except.ok ⟨ctx.sf.readOutput name, false⟩, s, [])
  | "run_apex_tests" =>
    if input.test_class_names.isEmpty then
      (Except.ok ⟨"No test class names provided.", true⟩, s, [])
    else
      (Except.ok ⟨ctx.sf.testOutput input.test_class_names,
          decide (0 < ctx.sf.testFailures input.test_class_names)⟩, s,
        [Event.restPost "tooling/runTestsSynchronous"])
  | "get_code_coverage" =>
    (Except.ok ⟨ctx.sf.readOutput name, false⟩, s,
      [Event.toolingQuery
        ("SELECT ApexClassOrTriggerId, ApexClassOrTrigger.Name, NumLinesCovered, NumLinesUncovered FROM ApexCodeCoverageAggregate WHERE ApexClassOrTrigger.Name = '"
          ++ input.class_name.replace "'" "\\'" ++ "'")])
  | "create_apex_class" =>
    executeCreateApexClass ctx s input.class_name input.body orgType
  | "update_apex_class" =>
    executeUpdateApexClass ctx s input.class_name input.body orgType
  | "create_apex_trigger" =>
    executeCreateApexTrigger ctx s input.trigger_name input.sobject_name input.body orgType
  | "update_apex_trigger" =>
    executeUpdateApexTrigger ctx s input.trigger_name input.body orgType
  | _ => (Except.ok ⟨"Unknown tool: " ++ name, true⟩, s, [])

/-- The `catch` of `executeTool`: a thrown error becomes a tool error
result, so no exception escapes into the agent loop. -/
def catchResult : Except String ToolResult → ToolResult
  | Except.ok r => r
  | Except.error e => ⟨"Error: " ++ e, true⟩

/-- `executeTool`: the safety guard rejecting development-only tools when no
component cache was constructed (the production case), then the dispatched
handler under the `try`/`catch`.  `componentCachePresent` states whether the
caller passed a `ComponentCacheService` (`null` in production). -/
def executeTool (name : String) (input : ToolInput) (ctx : Ctx)
    (s : SystemState) (componentCachePresent : Bool) (orgType : String) :
    ToolResult × SystemState × List Event :=
  if toolMode name = some "development" ∧ componentCachePresent = false then
    (⟨"This tool is not available for production orgs. Only data query and inventory tools are available.", true⟩,
      s, [])
  else
    let r := dispatchTool name input ctx s orgType
    (catchResult r.1, r.2.1, r.2.2)

/-! ### Concrete environments used by the witnesses -/

def sfA : SfOracle where
  apexClassByName := fun _ => none
  apexTriggerByName := fun _ => none
  apexClassList := []
  createRes := fun _ _ => ⟨true, "new-id", []⟩
  updateRes := fun _ _ => ⟨true, "", []⟩
  queryOutput := fun _ => "ok"
  readOutput := fun _ => "ok"
  testOutput := fun _ => "ok"
  testFailures := fun _ => 0

def storageOk : StorageOracle := ⟨fun _ _ => false, fun _ _ => false⟩

def ctxA : Ctx := ⟨"org1", sfA, storageOk, 0⟩

def emptyState : SystemState := ⟨fun _ _ => none, fun _ _ => none⟩

/-! ### C1 : write tools are blocked in production -/

def writeToolNames : List String :=
  ["create_apex_class", "update_apex_class", "create_apex_trigger", "update_apex_trigger"]

/-- C1: for every invocation of a mutating tool against a production org the
dispatcher answers an error result, performs no external call at all (in
particular no remote create/update) and leaves the caches untouched —
whether or not a component cache was constructed (i.e. regardless of the
tool-filtering state).  When the component cache is present, the error is
exactly the converted `assertWritableOrg` exception. -/
theorem write_tools_blocked_in_production (name : String)
    (h : name ∈ writeToolNames) (input : ToolInput) (ctx : Ctx)
    (s : SystemState) (compPresent : Bool) :
    ((executeTool name input ctx s compPresent "production").1.isError = true) ∧
    ((executeTool name input ctx s compPresent "production").2.1 = s) ∧
    ((executeTool name input ctx s compPresent "production").2.2 = []) ∧
    (compPresent = true →
      (executeTool name input ctx s compPresent "production").1.content
        = "Error: " ++ writeBlockedMsg) := by
  simp only [writeToolNames, List.mem_cons, List.not_mem_nil, or_false] at h
  rcases h with rfl | rfl | rfl | rfl <;> cases compPresent <;>
    refine ⟨?_, ?_, ?_, ?_⟩ <;>
    first
      | rfl
      | (intro hcp; first | rfl | exact Bool.noConfusion hcp)

/-- Witness for `write_tools_blocked_in_production`. -/
theorem write_tools_blocked_in_production_witness :
    "create_apex_class" ∈ writeToolNames ∧
    (((executeTool "create_apex_class" {} ctxA emptyState true "production").1.isError = true) ∧
    ((executeTool "create_apex_class" {} ctxA emptyState true "production").2.1 = emptyState) ∧
    ((executeTool "create_apex_class" {} ctxA emptyState true "production").2.2 = []) ∧
    (true = true →
      (executeTool "create_apex_class" {} ctxA emptyState true "production").1.content
        = "Error: " ++ writeBlockedMsg)) :=
  ⟨by decide,
    write_tools_blocked_in_production "create_apex_class" (by decide) {} ctxA emptyState true⟩

/-! ### C4 : TTL validity, cache hits and refresh-on-miss -/

/-- C4: for an entry written at `T` (ms) with TTL `S` (s), a read at
`now ≤ T + 1000·S` returns the cached payload and the only performed call is
the cache select (no remote call); a read at `now > T + 1000·S`, or with no
entry present, performs the remote fetch and upserts a fresh entry (stamped
`now`, service TTL) under the same composite key — for the component cache
(`getApexClassBody`) and the inventory cache (`getApexClasses`) alike. -/
theorem ttl_cache_validity (ctx : Ctx) (s : SystemState) (name : String)
    (r : ApexClassRec) (inv : List ApexClassSummary) (T S T2 S2 : Nat)
    (hname : validName name = true) :
    ((s.compStore ctx.orgId ("apex_class:" ++ name) = some ⟨CompData.apexClass r, T, S⟩
        ∧ ctx.now ≤ T + S * 1000) →
      ComponentCacheService.getApexClassBody ctx s name
        = (Except.ok r, s,
            [Event.cacheSelect "org_component_cache" ctx.orgId ("apex_class:" ++ name)])) ∧
    (((s.compStore ctx.orgId ("apex_class:" ++ name) = some ⟨CompData.apexClass r, T, S⟩
          ∧ T + S * 1000 < ctx.now)
        ∨ s.compStore ctx.orgId ("apex_class:" ++ name) = none) →
      ∀ rec0, ctx.sf.apexClassByName name = some rec0 →
        ctx.storage.upsertFails "org_component_cache" ("apex_class:" ++ name) = false →
        (ComponentCacheService.getApexClassBody ctx s name).1 = Except.ok rec0 ∧
        (ComponentCacheService.getApexClassBody ctx s name).2.2
          = [Event.cacheSelect "org_component_cache" ctx.orgId ("apex_class:" ++ name),
             Event.toolingQuery
               ("SELECT Id, Name, Body FROM ApexClass WHERE Name = '" ++ name ++ "' LIMIT 1"),
             Event.cacheUpsert "org_component_cache" ctx.orgId ("apex_class:" ++ name)] ∧
        (ComponentCacheService.getApexClassBody ctx s name).2.1.compStore
            ctx.orgId ("apex_class:" ++ name)
          = some ⟨CompData.apexClass rec0, ctx.now, COMPONENT_TTL⟩) ∧
    ((s.metaStore ctx.orgId "apex_classes" = some ⟨inv, T2, S2⟩
        ∧ ctx.now ≤ T2 + S2 * 1000) →
      OrgContextService.getApexClasses ctx s
        = (inv, s, [Event.cacheSelect "org_metadata_cache" ctx.orgId "apex_classes"])) ∧
    (((s.metaStore ctx.orgId "apex_classes" = some ⟨inv, T2, S2⟩ ∧ T2 + S2 * 1000 < ctx.now)
        ∨ s.metaStore ctx.orgId "apex_classes" = none) →
      ctx.storage.upsertFails "org_metadata_cache" "apex_classes" = false →
      (OrgContextService.getApexClasses ctx s).1 = ctx.sf.apexClassList ∧
      (OrgContextService.getApexClasses ctx s).2.2
        = [Event.cacheSelect "org_metadata_cache" ctx.orgId "apex_classes",
           Event.soqlQuery
             "SELECT Id, Name, LengthWithoutComments FROM ApexClass WHERE NamespacePrefix = null ORDER BY Name LIMIT 1000",
           Event.cacheUpsert "org_metadata_cache" ctx.orgId "apex_classes"] ∧
      (OrgContextService.getApexClasses ctx s).2.1.metaStore ctx.orgId "apex_classes"
        = some ⟨ctx.sf.apexClassList, ctx.now, TTL_apex_classes⟩) := by
  refine ⟨?_, ?_, ?_, ?_⟩
  · rintro ⟨hstore, hnow⟩
    simp [ComponentCacheService.getApexClassBody, validateName, hname,
      ComponentCacheService.getCached, getCachedAt, hstore, not_lt.mpr hnow,
      castApexClass]
  · rintro hmiss rec0 hsf hups
    have hcached : getCachedAt s.compStore ctx.orgId ("apex_class:" ++ name) ctx.now = none := by
      rcases hmiss with ⟨hstore, hnow⟩ | hstore
      · simp [getCachedAt, hstore, hnow]
      · simp [getCachedAt, hstore]
    refine ⟨?_, ?_, ?_⟩ <;>
      simp [ComponentCacheService.getApexClassBody, validateName, hname,
        ComponentCacheService.getCached, hcached, hsf,
        ComponentCacheService.setCache, hups, upsertAt]
  · rintro ⟨hstore, hnow⟩
    simp [OrgContextService.getApexClasses, OrgContextService.getCached,
      getCachedAt, hstore, not_lt.mpr hnow]
  · rintro hmiss hups
    have hcached : getCachedAt s.metaStore ctx.orgId "apex_classes" ctx.now = none := by
      rcases hmiss with ⟨hstore, hnow⟩ | hstore
      · simp [getCachedAt, hstore, hnow]
      · simp [getCachedAt, hstore]
    refine ⟨?_, ?_, ?_⟩ <;>
      simp [OrgContextService.getApexClasses, OrgContextService.getCached,
        hcached, OrgContextService.setCache, hups, upsertAt]

/-- Witness for `ttl_cache_validity`: a store holding a fresh class entry
and a fresh inventory entry at time 1000, read at time 500000 (inside both
TTLs). -/
theorem ttl_cache_validity_witness :
    validName "Foo" = true ∧
    (({ metaStore := fun o k =>
          if o = "org1" ∧ k = "apex_classes" then some ⟨[⟨"i1", "Foo", 10⟩], 1000, 21600⟩ else none,
        compStore := fun o k =>
          if o = "org1" ∧ k = "apex_class:Foo" then some ⟨CompData.apexClass ⟨"i1", "Foo", "body"⟩, 1000, 3600⟩ else none
        } : SystemState).compStore "org1" ("apex_class:" ++ "Foo")
          = some ⟨CompData.apexClass ⟨"i1", "Foo", "body"⟩, 1000, 3600⟩
      ∧ ({ orgId := "org1", sf := sfA, storage := storageOk, now := 500000 } : Ctx).now
          ≤ 1000 + 3600 * 1000) ∧
    ComponentCacheService.getApexClassBody
        { orgId := "org1", sf := sfA, storage := storageOk, now := 500000 }
        { metaStore := fun o k =>
            if o = "org1" ∧ k = "apex_classes" then some ⟨[⟨"i1", "Foo", 10⟩], 1000, 21600⟩ else none,
          compStore := fun o k =>
            if o = "org1" ∧ k = "apex_class:Foo" then some ⟨CompData.apexClass ⟨"i1", "Foo", "body"⟩, 1000, 3600⟩ else none }
        "Foo"
      = (Except.ok ⟨"i1", "Foo", "body"⟩,
          { metaStore := fun o k =>
              if o = "org1" ∧ k = "apex_classes" then some ⟨[⟨"i1", "Foo", 10⟩], 1000, 21600⟩ else none,
            compStore := fun o k =>
              if o = "org1" ∧ k = "apex_class:Foo" then some ⟨CompData.apexClass ⟨"i1", "Foo", "body"⟩, 1000, 3600⟩ else none },
          [Event.cacheSelect "org_component_cache" "org1" ("apex_class:" ++ "Foo")]) := by
  refine ⟨by decide, ⟨?_, by norm_num⟩, ?_⟩
  · simp
  · exact (ttl_cache_validity _ _ "Foo" ⟨"i1", "Foo", "body"⟩ [⟨"i1", "Foo", 10⟩]
      1000 3600 0 0 (by decide)).1 ⟨by simp, by norm_num⟩

/-! ### C5 : write tools — invalidate on success, error result on failure -/

/-- With a component cache present, the dev-only guard never fires and
`executeTool` is the dispatched handler under the `catch`. -/
lemma executeTool_comp_present (name : String) (input : ToolInput) (ctx : Ctx)
    (s : SystemState) (orgType : String) :
    executeTool name input ctx s true orgType
      = (catchResult (dispatchTool name input ctx s orgType).1,
         (dispatchTool name input ctx s orgType).2.1,
         (dispatchTool name input ctx s orgType).2.2) := by
  simp [executeTool]

/-- C5: for each of the four write tools, run in a non-production org with a
component cache present: on remote failure the structured compile errors come
back as an error-flagged tool result (state and caches untouched beyond the
already-performed lookup); on remote success the result is not error-flagged
and the relevant cache invalidations are performed (and, when the storage
deletes succeed, the entries are gone) before the result is returned; and a
handler exception (e.g. a not-found lookup) is converted by the `catch` into
an error result instead of escaping into the loop. -/
theorem write_tools_invalidate_and_report (input : ToolInput) (ctx : Ctx)
    (s : SystemState) (orgType : String) (hO : ¬orgType = "production") :
    -- create_apex_class
    (((ctx.sf.createRes "ApexClass" input.class_name).success = false →
      executeTool "create_apex_class" input ctx s true orgType
        = (⟨"Failed to create Apex class \"" ++ input.class_name
              ++ "\".\n\nCompile errors:\n"
              ++ formatSaveErrors (ctx.sf.createRes "ApexClass" input.class_name).errors, true⟩,
           s, [Event.toolingCreate "ApexClass" input.class_name])) ∧
     ((ctx.sf.createRes "ApexClass" input.class_name).success = true →
      (executeTool "create_apex_class" input ctx s true orgType).1
        = ⟨"Apex class \"" ++ input.class_name ++ "\" created successfully.\nId: "
            ++ (ctx.sf.createRes "ApexClass" input.class_name).resId, false⟩ ∧
      (executeTool "create_apex_class" input ctx s true orgType).2.2
        = [Event.toolingCreate "ApexClass" input.class_name,
           Event.cacheDelete "org_metadata_cache" ctx.orgId "apex_classes",
           Event.cacheDelete "org_component_cache" ctx.orgId ("apex_class:" ++ input.class_name)] ∧
      (ctx.storage.deleteFails "org_metadata_cache" "apex_classes" = false →
       ctx.storage.deleteFails "org_component_cache" ("apex_class:" ++ input.class_name) = false →
        (executeTool "create_apex_class" input ctx s true orgType).2.1.metaStore
            ctx.orgId "apex_classes" = none ∧
        (executeTool "create_apex_class" input ctx s true orgType).2.1.compStore
            ctx.orgId ("apex_class:" ++ input.class_name) = none))) ∧
    -- update_apex_class (conditioned on the outcome of the lookup)
    ((∀ ex, (ComponentCacheService.getApexClassBody ctx s input.class_name).1 = Except.ok ex →
      (((ctx.sf.updateRes "ApexClass" ex.id).success = false →
        executeTool "update_apex_class" input ctx s true orgType
          = (⟨"Failed to update Apex class \"" ++ input.class_name
                ++ "\".\n\nCompile errors:\n"
                ++ formatSaveErrors (ctx.sf.updateRes "ApexClass" ex.id).errors, true⟩,
             (ComponentCacheService.getApexClassBody ctx s input.class_name).2.1,
             (ComponentCacheService.getApexClassBody ctx s input.class_name).2.2
               ++ [Event.toolingUpdate "ApexClass" ex.id])) ∧
       ((ctx.sf.updateRes "ApexClass" ex.id).success = true →
        (executeTool "update_apex_class" input ctx s true orgType).1
          = ⟨"Apex class \"" ++ input.class_name ++ "\" updated successfully.", false⟩ ∧
        (executeTool "update_apex_class" input ctx s true orgType).2.2
          = (ComponentCacheService.getApexClassBody ctx s input.class_name).2.2
              ++ [Event.toolingUpdate "ApexClass" ex.id]
              ++ [Event.cacheDelete "org_metadata_cache" ctx.orgId "apex_classes"]
              ++ [Event.cacheDelete "org_component_cache" ctx.orgId ("apex_class:" ++ input.class_name)] ∧
        (ctx.storage.deleteFails "org_metadata_cache" "apex_classes" = false →
         ctx.storage.deleteFails "org_component_cache" ("apex_class:" ++ input.class_name) = false →
          (executeTool "update_apex_class" input ctx s true orgType).2.1.compStore
              ctx.orgId ("apex_class:" ++ input.class_name) = none)))) ∧
     (∀ e, (ComponentCacheService.getApexClassBody ctx s input.class_name).1 = Except.error e →
        executeTool "update_apex_class" input ctx s true orgType
          = (⟨"Error: " ++ e, true⟩,
             (ComponentCacheService.getApexClassBody ctx s input.class_name).2.1,
             (ComponentCacheService.getApexClassBody ctx s input.class_name).2.2))) ∧
    -- create_apex_trigger
    (((ctx.sf.createRes "ApexTrigger" input.trigger_name).success = false →
      executeTool "create_apex_trigger" input ctx s true orgType
        = (⟨"Failed to create Apex trigger \"" ++ input.trigger_name
              ++ "\".\n\nCompile errors:\n"
              ++ formatSaveErrors (ctx.sf.createRes "ApexTrigger" input.trigger_name).errors, true⟩,
           s, [Event.toolingCreate "ApexTrigger" input.trigger_name])) ∧
     ((ctx.sf.createRes "ApexTrigger" input.trigger_name).success = true →
      (executeTool "create_apex_trigger" input ctx s true orgType).1
        = ⟨"Apex trigger \"" ++ input.trigger_name ++ "\" on " ++ input.sobject_name
            ++ " created successfully.\nId: "
            ++ (ctx.sf.createRes "ApexTrigger" input.trigger_name).resId, false⟩ ∧
      (executeTool "create_apex_trigger" input ctx s true orgType).2.2
        = [Event.toolingCreate "ApexTrigger" input.trigger_name,
           Event.cacheDelete "org_component_cache" ctx.orgId ("apex_trigger:" ++ input.trigger_name)] ∧
      (ctx.storage.deleteFails "org_component_cache" ("apex_trigger:" ++ input.trigger_name) = false →
        (executeTool "create_apex_trigger" input ctx s true orgType).2.1.compStore
            ctx.orgId ("apex_trigger:" ++ input.trigger_name) = none))) ∧
    -- update_apex_trigger
    (∀ ex, (ComponentCacheService.getApexTriggerBody ctx s input.trigger_name).1 = Except.ok ex →
      (((ctx.sf.updateRes "ApexTrigger" ex.id).success = false →
        executeTool "update_apex_trigger" input ctx s true orgType
          = (⟨"Failed to update Apex trigger \"" ++ input.trigger_name
                ++ "\".\n\nCompile errors:\n"
                ++ formatSaveErrors (ctx.sf.updateRes "ApexTrigger" ex.id).errors, true⟩,
             (ComponentCacheService.getApexTriggerBody ctx s input.trigger_name).2.1,
             (ComponentCacheService.getApexTriggerBody ctx s input.trigger_name).2.2
               ++ [Event.toolingUpdate "ApexTrigger" ex.id])) ∧
       ((ctx.sf.updateRes "ApexTrigger" ex.id).success = true →
        (executeTool "update_apex_trigger" input ctx s true orgType).1
          = ⟨"Apex trigger \"" ++ input.trigger_name ++ "\" updated successfully.", false⟩ ∧
        (executeTool "update_apex_trigger" input ctx s true orgType).2.2
          = (ComponentCacheService.getApexTriggerBody ctx s input.trigger_name).2.2
              ++ [Event.toolingUpdate "ApexTrigger" ex.id]
              ++ [Event.cacheDelete "org_component_cache" ctx.orgId ("apex_trigger:" ++ input.trigger_name)] ∧
        (ctx.storage.deleteFails "org_component_cache" ("apex_trigger:" ++ input.trigger_name) = false →
          (executeTool "update_apex_trigger" input ctx s true orgType).2.1.compStore
              ctx.orgId ("apex_trigger:" ++ input.trigger_name) = none)))) := by
  refine ⟨⟨?_, ?_⟩, ⟨?_, ?_⟩, ⟨?_, ?_⟩, ?_⟩
  · intro hfail
    rw [executeTool_comp_present]
    simp [dispatchTool, executeCreateApexClass, assertWritableOrg, hO, hfail, catchResult]
  · intro hok
    rw [executeTool_comp_present]
    refine ⟨?_, ?_, fun h1 h2 => ⟨?_, ?_⟩⟩ <;>
      simp [dispatchTool, executeCreateApexClass, assertWritableOrg, hO, hok, catchResult,
        OrgContextService.invalidateCache, ComponentCacheService.invalidateComponent,
        deleteAt, *]
  · intro ex hex
    constructor
    · intro hfail
      rw [executeTool_comp_present]
      simp [dispatchTool, executeUpdateApexClass, assertWritableOrg, hO, hex, hfail, catchResult]
    · intro hok
      rw [executeTool_comp_present]
      refine ⟨?_, ?_, fun h1 h2 => ?_⟩ <;>
        simp [dispatchTool, executeUpdateApexClass, assertWritableOrg, hO, hex, hok, catchResult,
          OrgContextService.invalidateCache, ComponentCacheService.invalidateComponent,
          deleteAt, *]
  · intro e he
    rw [executeTool_comp_present]
    simp [dispatchTool, executeUpdateApexClass, assertWritableOrg, hO, he, catchResult]
  · intro hfail
    rw [executeTool_comp_present]
    simp [dispatchTool, executeCreateApexTrigger, assertWritableOrg, hO, hfail, catchResult]
  · intro hok
    rw [executeTool_comp_present]
    refine ⟨?_, ?_, fun h1 => ?_⟩ <;>
      simp [dispatchTool, executeCreateApexTrigger, assertWritableOrg, hO, hok, catchResult,
        ComponentCacheService.invalidateComponent, deleteAt, *]
  · intro ex hex
    constructor
    · intro hfail
      rw [executeTool_comp_present]
      simp [dispatchTool, executeUpdateApexTrigger, assertWritableOrg, hO, hex, hfail, catchResult]
    · intro hok
      rw [executeTool_comp_present]
      refine ⟨?_, ?_, fun h1 => ?_⟩ <;>
        simp [dispatchTool, executeUpdateApexTrigger, assertWritableOrg, hO, hex, hok, catchResult,
          ComponentCacheService.invalidateComponent, deleteAt, *]

/-- Witness for `write_tools_invalidate_and_report`: a successful class
creation in a sandbox org. -/
theorem write_tools_invalidate_and_report_witness :
    ¬("sandbox" : String) = "production" ∧
    (ctxA.sf.createRes "ApexClass" "Foo").success = true ∧
    (executeTool "create_apex_class" { class_name := "Foo", body := "public class Foo {}" }
        ctxA emptyState true "sandbox").1
      = ⟨"Apex class \"" ++ ("Foo" : String) ++ "\" created successfully.\nId: "
          ++ (ctxA.sf.createRes "ApexClass" "Foo").resId, false⟩ :=
  ⟨by decide, by decide,
    ((write_tools_invalidate_and_report
        { class_name := "Foo", body := "public class Foo {}" } ctxA emptyState "sandbox"
        (by decide)).1.2 (by decide)).1⟩

/-! ### C6 : identifier validation of the write tools

The spec scenario claims that a write tool invoked with a component name that
fails the strict identifier pattern is rejected before any remote call.  That
holds for the update tools (whose lookup path runs `validateName` before
anything else) but **not** for the create tools: `executeCreateApexClass` and
`executeCreateApexTrigger` never validate the name and pass it straight to
the remote `conn.tooling.create`. -/

/-- Counterexample to C6 as stated: in a sandbox org, `create_apex_class`
with the class name `"My Class"` (which fails the identifier pattern) is not
rejected — the remote create is attempted with that very name and the tool
reports success. -/
theorem create_tool_skips_name_validation :
    validName "My Class" = false ∧
    (executeTool "create_apex_class"
        { class_name := "My Class", body := "public class My Class {}" }
        ctxA emptyState true "sandbox").1.isError = false ∧
    Event.toolingCreate "ApexClass" "My Class"
      ∈ (executeTool "create_apex_class"
          { class_name := "My Class", body := "public class My Class {}" }
          ctxA emptyState true "sandbox").2.2 := by
  refine ⟨by decide, ?_, ?_⟩ <;> decide

/-- C6 (amended): the update write tools reject a component name that fails
the identifier pattern with the descriptive validation error before any call
is performed (the trace is empty); the create tools perform no such
validation. -/
theorem update_tools_validate_name (input : ToolInput) (ctx : Ctx)
    (s : SystemState) (orgType : String) (hO : ¬orgType = "production")
    (hc : validName input.class_name = false)
    (ht : validName input.trigger_name = false) :
    executeTool "update_apex_class" input ctx s true orgType
      = (⟨"Error: " ++ invalidNameMsg "Apex class" input.class_name, true⟩, s, []) ∧
    executeTool "update_apex_trigger" input ctx s true orgType
      = (⟨"Error: " ++ invalidNameMsg "Apex trigger" input.trigger_name, true⟩, s, []) := by
  constructor
  · rw [executeTool_comp_present]
    simp [dispatchTool, executeUpdateApexClass, assertWritableOrg, hO,
      ComponentCacheService.getApexClassBody, validateName, hc, catchResult]
  · rw [executeTool_comp_present]
    simp [dispatchTool, executeUpdateApexTrigger, assertWritableOrg, hO,
      ComponentCacheService.getApexTriggerBody, validateName, ht, catchResult]

/-- Witness for `update_tools_validate_name`. -/
theorem update_tools_validate_name_witness :
    ¬("sandbox" : String) = "production" ∧
    validName "My Class" = false ∧ validName "My Trigger" = false ∧
    executeTool "update_apex_class"
        { class_name := "My Class", trigger_name := "My Trigger" }
        ctxA emptyState true "sandbox"
      = (⟨"Error: " ++ invalidNameMsg "Apex class" "My Class", true⟩, emptyState, []) :=
  ⟨by decide, by decide, by decide,
    (update_tools_validate_name { class_name := "My Class", trigger_name := "My Trigger" }
      ctxA emptyState "sandbox" (by decide) (by decide) (by decide)).1⟩

/-! ### C10 : storage errors in cache writes/invalidations are swallowed -/

/-- A fresh component-cache hit (used below and by the TTL theorem's
scenario): the cached record is served, nothing is mutated, and the only call
is the cache select. -/
lemma getApexClassBody_hit (ctx : Ctx) (s : SystemState) (name : String)
    (r : ApexClassRec) (T S : Nat) (hname : validName name = true)
    (hstore : s.compStore ctx.orgId ("apex_class:" ++ name)
      = some ⟨CompData.apexClass r, T, S⟩)
    (hnow : ctx.now ≤ T + S * 1000) :
    ComponentCacheService.getApexClassBody ctx s name
      = (Except.ok r, s,
          [Event.cacheSelect "org_component_cache" ctx.orgId ("apex_class:" ++ name)]) := by
  simp [ComponentCacheService.getApexClassBody, validateName, hname,
    ComponentCacheService.getCached, getCachedAt, hstore, not_lt.mpr hnow, castApexClass]

/-- C10: a storage-layer failure in `setCache` or `invalidateComponent` is
only logged — the method returns normally with the store unchanged.  As a
consequence, `update_apex_class` still reports success when the post-write
component invalidation failed, and the stale pre-write entry keeps being
served without a remote call until its TTL expires. -/
theorem cache_storage_errors_swallowed (ctx : Ctx) (s : SystemState)
    (typ n k : String) (d : CompData) (input : ToolInput) (r : ApexClassRec)
    (T S : Nat) (orgType : String) (hO : ¬orgType = "production") :
    (ctx.storage.deleteFails "org_component_cache" (typ ++ ":" ++ n) = true →
      ComponentCacheService.invalidateComponent ctx s typ n
        = (s, [Event.cacheDelete "org_component_cache" ctx.orgId (typ ++ ":" ++ n)])) ∧
    (ctx.storage.upsertFails "org_component_cache" k = true →
      ComponentCacheService.setCache ctx s k d
        = (s, [Event.cacheUpsert "org_component_cache" ctx.orgId k])) ∧
    (validName input.class_name = true →
     s.compStore ctx.orgId ("apex_class:" ++ input.class_name)
        = some ⟨CompData.apexClass r, T, S⟩ →
     ctx.now ≤ T + S * 1000 →
     (ctx.sf.updateRes "ApexClass" r.id).success = true →
     ctx.storage.deleteFails "org_component_cache" ("apex_class:" ++ input.class_name) = true →
      (executeTool "update_apex_class" input ctx s true orgType).1
        = ⟨"Apex class \"" ++ input.class_name ++ "\" updated successfully.", false⟩ ∧
      (executeTool "update_apex_class" input ctx s true orgType).2.1.compStore
          ctx.orgId ("apex_class:" ++ input.class_name)
        = some ⟨CompData.apexClass r, T, S⟩ ∧
      (∀ now', now' ≤ T + S * 1000 →
        ComponentCacheService.getApexClassBody { ctx with now := now' }
            (executeTool "update_apex_class" input ctx s true orgType).2.1
            input.class_name
          = (Except.ok r,
             (executeTool "update_apex_class" input ctx s true orgType).2.1,
             [Event.cacheSelect "org_component_cache" ctx.orgId
               ("apex_class:" ++ input.class_name)]))) := by
  refine ⟨?_, ?_, ?_⟩
  · intro hdel
    simp [ComponentCacheService.invalidateComponent, hdel]
  · intro hups
    simp [ComponentCacheService.setCache, hups]
  · intro hname hstore hnow hupd hdel
    have hlk := getApexClassBody_hit ctx s input.class_name r T S hname hstore hnow
    have hE : (executeTool "update_apex_class" input ctx s true orgType).2.1.compStore
        = s.compStore := by
      rw [executeTool_comp_present]
      simp only [dispatchTool, executeUpdateApexClass, assertWritableOrg, hO,
        if_neg hO, hlk]
      simp [hupd, OrgContextService.invalidateCache,
        ComponentCacheService.invalidateComponent, hdel]
      split <;> rfl
    refine ⟨?_, ?_, ?_⟩
    · rw [executeTool_comp_present]
      simp [dispatchTool, executeUpdateApexClass, assertWritableOrg, hO, hlk,
        hupd, catchResult, OrgContextService.invalidateCache,
        ComponentCacheService.invalidateComponent, hdel]
    · rw [hE, hstore]
    · intro now' hnow'
      exact getApexClassBody_hit { ctx with now := now' } _ input.class_name r T S
        hname (by rw [hE]; exact hstore) hnow'

/-- Storage oracle whose component-cache delete fails for the class `Foo`. -/
def storageFailDel : StorageOracle :=
  ⟨fun _ _ => false, fun t k => t == "org_component_cache" && k == "apex_class:Foo"⟩

def ctxB : Ctx := ⟨"org1", sfA, storageFailDel, 500000⟩

def stateB : SystemState :=
  ⟨fun _ _ => none,
   fun o k =>
     if o = "org1" ∧ k = "apex_class:Foo" then
       some ⟨CompData.apexClass ⟨"i1", "Foo", "old body"⟩, 1000, 3600⟩
     else none⟩

/-- Witness for `cache_storage_errors_swallowed`: the component delete for
`apex_class:Foo` fails, yet the update reports success. -/
theorem cache_storage_errors_swallowed_witness :
    validName "Foo" = true ∧
    ctxB.storage.deleteFails "org_component_cache" ("apex_class:" ++ "Foo") = true ∧
    (executeTool "update_apex_class" { class_name := "Foo", body := "new body" }
        ctxB stateB true "sandbox").1
      = ⟨"Apex class \"" ++ ("Foo" : String) ++ "\" updated successfully.", false⟩ :=
  ⟨by decide, by decide,
    ((cache_storage_errors_swallowed ctxB stateB "apex_class" "Foo" "k"
        (CompData.apexClass ⟨"", "", ""⟩) { class_name := "Foo", body := "new body" }
        ⟨"i1", "Foo", "old body"⟩ 1000 3600 "sandbox" (by decide)).2.2
      (by decide) (by decide) (by decide) (by decide) (by decide)).1⟩

/-! ## The multi-org resolver of `handleEventAsync`
(`src/routes/slackWebhooks.ts`, step 4b–4e)

Reached when the account has more than one connected org and the originating
thread has no prior job.  `msgLower` is the already-lowercased message text
(`messageText.toLowerCase()`). -/

structure OrgInfo where
  id : String
  name : String
  type : String
  deriving DecidableEq, Repr

/-- `msgLower.includes(pat)` — substring test. -/
def prefixOfChars : List Char → List Char → Bool
  | [], _ => true
  | _ :: _, [] => false
  | p :: ps, h :: hs => p = h && prefixOfChars ps hs

def containsSub : List Char → List Char → Bool
  | pat, [] => prefixOfChars pat []
  | pat, c :: hs => prefixOfChars pat (c :: hs) || containsSub pat hs

def lowerChars (l : List Char) : List Char := l.map Char.toLower

/-- The characters of the token-splitting class `[\s\-_.,]`. -/
def isTokenSep (c : Char) : Bool :=
  isSpaceChar c || c = '-' || c = '_' || c = '.' || c = ','

/-- Split on separator characters.  Unlike the `+`-quantified JS split this
emits an empty field per extra separator in a run, but the two results agree
on every field of length ≥ 3, which is all the caller ever looks at. -/
def splitSepsAux : List Char → List Char → List (List Char)
  | cur, [] => [cur.reverse]
  | cur, c :: cs =>
    if isTokenSep c then cur.reverse :: splitSepsAux [] cs
    else splitSepsAux (c :: cur) cs

def splitSeps (l : List Char) : List (List Char) := splitSepsAux [] l

/-- The `noiseWords` stop-word set. -/
def noiseWords : List (List Char) :=
  ["org", "the", "in", "my", "a", "an", "for", "of", "and", "llc", "inc",
   "corp", "ltd"].map String.toList

/-- One org matches iff its full lowercased name occurs in the message, or
one of its name tokens of length ≥ 3 outside the stop-word set does. -/
def orgMatches (msgLower : List Char) (org : OrgInfo) : Bool :=
  let nameLower := lowerChars org.name.toList
  containsSub nameLower msgLower
    || ((splitSeps nameLower).filter
          (fun t => 3 ≤ t.length && !noiseWords.contains t)).any
        (fun tok => containsSub tok msgLower)

def devKeywords : List String :=
  ["create", "update", "write", "deploy", "build", "add a",
   "source code", "class body", "trigger body", "apex class", "apex trigger",
   "lwc source", "flow definition", "flow metadata",
   "run test", "run apex test", "code coverage", "test class",
   "refactor", "fix the code", "modify", "change the code"]

def prodKeywords : List String :=
  ["how many", "count", "list all", "show me the", "what are",
   "who has", "which users", "permission set", "report", "dashboard",
   "record", "query", "find all", "look up"]

inductive Resolution
  | selected (orgId : String)
  | picker
  deriving DecidableEq, Repr

/-- Steps 4b–4e of `handleEventAsync`: name matching first (one match
selects, several matches go straight to the picker), then dev-intent
inference, then read-intent inference, then the picker. -/
def resolveMultiOrg (msgLower : List Char) (orgs : List OrgInfo) : Resolution :=
  match orgs.filter (orgMatches msgLower) with
  | [m] => Resolution.selected m.id
  | _ :: _ :: _ => Resolution.picker
  | [] =>
    let devPick :=
      if devKeywords.any (fun kw => containsSub kw.toList msgLower) then
        match orgs.filter (fun o => o.type == "sandbox" || o.type == "developer") with
        | [d] => some d
        | _ => none
      else none
    match devPick with
    | some d => Resolution.selected d.id
    | none =>
      let prodPick :=
        if prodKeywords.any (fun kw => containsSub kw.toList msgLower) then
          match orgs.filter (fun o => o.type == "production") with
          | [p] => some p
          | _ => none
        else none
      match prodPick with
      | some p => Resolution.selected p.id
      | none => Resolution.picker

/-! ### C7 lemmas : `includes` is the substring relation -/

lemma prefixOfChars_iff {p h : List Char} :
    prefixOfChars p h = true ↔ ∃ r, h = p ++ r := by
  induction p generalizing h with
  | nil => simp [prefixOfChars]
  | cons x ps ih =>
    cases h with
    | nil => simp [prefixOfChars]
    | cons c hs =>
      simp only [prefixOfChars, Bool.and_eq_true, decide_eq_true_eq, ih,
        List.cons_append, List.cons.injEq]
      constructor
      · rintro ⟨rfl, r, rfl⟩; exact ⟨r, rfl, rfl⟩
      · rintro ⟨r, rfl, rfl⟩; exact ⟨rfl, r, rfl⟩

lemma containsSub_iff {pat hay : List Char} :
    containsSub pat hay = true ↔ ∃ l r, hay = l ++ pat ++ r := by
  induction hay with
  | nil =>
    simp only [containsSub, prefixOfChars_iff]
    constructor
    · rintro ⟨r, hr⟩
      exact ⟨[], r, by simpa using hr⟩
    · rintro ⟨l, r, hlr⟩
      have h2 : l ++ (pat ++ r) = [] := by rw [← List.append_assoc]; exact hlr.symm
      obtain ⟨-, hpr⟩ := List.append_eq_nil.mp h2
      obtain ⟨hp, -⟩ := List.append_eq_nil.mp hpr
      exact ⟨[], by simp [hp]⟩
  | cons c hs ih =>
    simp only [containsSub, Bool.or_eq_true, prefixOfChars_iff, ih]
    constructor
    · rintro (⟨r, hr⟩ | ⟨l, r, rfl⟩)
      · exact ⟨[], r, by simpa using hr⟩
      · exact ⟨c :: l, r, rfl⟩
    · rintro ⟨l, r, hlr⟩
      cases l with
      | nil => exact Or.inl ⟨r, by simpa using hlr⟩
      | cons x l' =>
        simp only [List.cons_append, List.cons.injEq] at hlr
        exact Or.inr ⟨l', r, hlr.2⟩

/-! ### C7 : name matching and its precedence over intent inference -/

/-- C7: with several connected orgs and no thread affinity, an org matches
iff its full lowercased name occurs in the message or one of its name tokens
(length ≥ 3, not a stop word) does; exactly one matching org is selected
directly, and two or more matching orgs skip intent inference entirely and
yield the interactive picker. -/
theorem multi_org_name_matching (msgLower : List Char) (orgs : List OrgInfo) :
    (∀ org : OrgInfo,
      orgMatches msgLower org = true ↔
        ((∃ l r, msgLower = l ++ lowerChars org.name.toList ++ r) ∨
          ∃ t ∈ splitSeps (lowerChars org.name.toList),
            3 ≤ t.length ∧ t ∉ noiseWords ∧ ∃ l r, msgLower = l ++ t ++ r)) ∧
    (∀ m, orgs.filter (orgMatches msgLower) = [m] →
      resolveMultiOrg msgLower orgs = Resolution.selected m.id) ∧
    (2 ≤ (orgs.filter (orgMatches msgLower)).length →
      resolveMultiOrg msgLower orgs = Resolution.picker) := by
  refine ⟨?_, ?_, ?_⟩
  · intro org
    constructor
    · intro h
      simp only [orgMatches, Bool.or_eq_true, List.any_eq_true, List.mem_filter,
        Bool.and_eq_true, decide_eq_true_eq, Bool.not_eq_true'] at h
      rcases h with h | ⟨t, ⟨ht, hlen, hmem⟩, hsub⟩
      · exact Or.inl (containsSub_iff.mp h)
      · exact Or.inr ⟨t, ht, hlen, by simpa using hmem, containsSub_iff.mp hsub⟩
    · intro h
      simp only [orgMatches, Bool.or_eq_true, List.any_eq_true, List.mem_filter,
        Bool.and_eq_true, decide_eq_true_eq, Bool.not_eq_true']
      rcases h with h | ⟨t, ht, hlen, hmem, hsub⟩
      · exact Or.inl (containsSub_iff.mpr h)
      · exact Or.inr ⟨t, ⟨ht, hlen, by simpa using hmem⟩, containsSub_iff.mpr hsub⟩
  · intro m hm
    unfold resolveMultiOrg
    rw [hm]
  · intro hlen
    unfold resolveMultiOrg
    cases hf : orgs.filter (orgMatches msgLower) with
    | nil => rw [hf] at hlen; simp at hlen
    | cons a t =>
      cases t with
      | nil => rw [hf] at hlen; simp at hlen
      | cons b t' => rfl

/-- Witness for `multi_org_name_matching`: two orgs, a message naming the
sandbox by a token of its display name — the filter has exactly one element
and that org is selected. -/
theorem multi_org_name_matching_witness :
    ([⟨"o1", "Acme Production", "production"⟩,
      ⟨"o2", "Acme Staging", "sandbox"⟩] : List OrgInfo).filter
        (orgMatches ("how many accounts in staging").toList)
      = [⟨"o2", "Acme Staging", "sandbox"⟩] ∧
    resolveMultiOrg ("how many accounts in staging").toList
        [⟨"o1", "Acme Production", "production"⟩, ⟨"o2", "Acme Staging", "sandbox"⟩]
      = Resolution.selected "o2" :=
  ⟨by decide,
    (multi_org_name_matching ("how many accounts in staging").toList
      [⟨"o1", "Acme Production", "production"⟩, ⟨"o2", "Acme Staging", "sandbox"⟩]).2.1
      ⟨"o2", "Acme Staging", "sandbox"⟩ (by decide)⟩

/-! ## The agent turn loop (`runAgentLoop` in `src/agent/loop.ts`)

Modelled at the level of its turn/stop-reason control flow.  The set-up steps
(Salesforce connection, org summary, loading or creating the job) do not
influence which of the loop's exits is taken and are abstracted; the model
starts at the `status: "running"` update just before the loop.  The reasoning
model is an oracle giving each turn's stop reason and (for a natural
completion) the joined text of the response's text blocks. -/

inductive StopReason
  | endTurn
  | toolUse
  | other
  deriving DecidableEq, Repr

def MAX_TURNS : Nat := 10

def capacityLimitMsg : String :=
  "I've reached my processing limit for this request. Please start a new message if you need more help."

/-- One `while (turnCount < MAX_TURNS)` execution, with `remaining` turns
left.  `remaining = 0` is the loop condition failing: the post-loop code
sends the capacity-limit reply and marks the job completed.  An `end_turn`
response replies with the extracted text (skipped when it is empty, as
`if (replyText)` does) and marks the job completed; a `tool_use` response
executes the requested tools, checkpoints the transcript and iterates; any
other stop reason breaks out of the loop, landing in the same post-loop
code. -/
def loopTurns (responses : Nat → StopReason) (texts : Nat → String) :
    Nat → Nat → List Event
  | _, 0 => [Event.slackReply capacityLimitMsg, Event.jobStatus "completed"]
  | turn, remaining + 1 =>
    Event.modelCall turn ::
      match responses turn with
      | StopReason.endTurn =>
        (if texts turn = "" then [] else [Event.slackReply (texts turn)])
          ++ [Event.jobStatus "completed"]
      | StopReason.toolUse =>
        Event.toolExec turn :: Event.checkpoint turn
          :: loopTurns responses texts (turn + 1) remaining
      | StopReason.other =>
        [Event.slackReply capacityLimitMsg, Event.jobStatus "completed"]

/-- `runAgentLoop`: mark the job running, then drive up to `MAX_TURNS`
turns. -/
def runAgentLoop (responses : Nat → StopReason) (texts : Nat → String) :
    List Event :=
  Event.jobStatus "running" :: loopTurns responses texts 1 MAX_TURNS

/-! ### C8 : turn-cap exhaustion completes the job -/

lemma loopTurns_all_toolUse (responses : Nat → StopReason) (texts : Nat → String)
    (remaining turn : Nat)
    (h : ∀ t, turn ≤ t → t < turn + remaining → responses t = StopReason.toolUse) :
    ∃ pre, loopTurns responses texts turn remaining
      = pre ++ [Event.slackReply capacityLimitMsg, Event.jobStatus "completed"] := by
  induction remaining generalizing turn with
  | zero => exact ⟨[], rfl⟩
  | succ r ih =>
    have hthis : responses turn = StopReason.toolUse :=
      h turn le_rfl (by omega)
    obtain ⟨pre, hpre⟩ := ih (turn + 1) (fun t ht1 ht2 => h t (by omega) (by omega))
    refine ⟨Event.modelCall turn :: Event.toolExec turn :: Event.checkpoint turn :: pre, ?_⟩
    simp only [loopTurns, hthis, hpre, List.cons_append]

lemma loopTurns_no_failed (responses : Nat → StopReason) (texts : Nat → String)
    (remaining turn : Nat) :
    Event.jobStatus "failed" ∉ loopTurns responses texts turn remaining := by
  induction remaining generalizing turn with
  | zero => simp [loopTurns]
  | succ r ih =>
    simp only [loopTurns]
    cases responses turn with
    | endTurn =>
      by_cases h : texts turn = "" <;> simp [h]
    | toolUse => simp [List.mem_cons, ih (turn + 1)]
    | other => simp

/-- C8: when each of the 10 turns ends in a tool invocation (no natural
completion), the loop's trace is some prefix followed by the capacity-limit
reply and a `completed` status update; and no execution of the loop ever
sets the job status to `failed`. -/
theorem turn_cap_completes (responses : Nat → StopReason) (texts : Nat → String)
    (h : ∀ t, 1 ≤ t → t ≤ MAX_TURNS → responses t = StopReason.toolUse) :
    (∃ pre, runAgentLoop responses texts
      = pre ++ [Event.slackReply capacityLimitMsg, Event.jobStatus "completed"]) ∧
    Event.jobStatus "failed" ∉ runAgentLoop responses texts := by
  constructor
  · obtain ⟨pre, hpre⟩ := loopTurns_all_toolUse responses texts MAX_TURNS 1
      (fun t ht1 ht2 => h t ht1 (by omega))
    exact ⟨Event.jobStatus "running" :: pre, by simp [runAgentLoop, hpre]⟩
  · intro hmem
    rcases List.mem_cons.mp hmem with heq | hmem'
    · exact Event.noConfusion heq (fun h1 => by simp at h1)
    · exact loopTurns_no_failed responses texts MAX_TURNS 1 hmem'

/-- Witness for `turn_cap_completes`: every turn is a tool turn. -/
theorem turn_cap_completes_witness :
    (∀ t, 1 ≤ t → t ≤ MAX_TURNS → (fun _ => StopReason.toolUse) t = StopReason.toolUse) ∧
    (∃ pre, runAgentLoop (fun _ => StopReason.toolUse) (fun _ => "")
      = pre ++ [Event.slackReply capacityLimitMsg, Event.jobStatus "completed"]) ∧
    Event.jobStatus "failed" ∉ runAgentLoop (fun _ => StopReason.toolUse) (fun _ => "") :=
  ⟨fun _ _ _ => rfl,
    turn_cap_completes (fun _ => StopReason.toolUse) (fun _ => "") (fun _ _ _ => rfl)⟩

/-! ## Disconnecting an org (`DELETE /api/orgs/:orgId` in `routes/orgs.ts`) -/

structure OrgRec where
  id : String
  accountId : String
  deriving DecidableEq, Repr

structure JobRec where
  id : String
  orgId : String
  status : String
  deriving DecidableEq, Repr

structure JobLogRec where
  jobId : String
  message : String
  deriving DecidableEq, Repr

structure JobArtifactRec where
  jobId : String
  deriving DecidableEq, Repr

structure Db where
  orgs : List OrgRec
  jobs : List JobRec
  jobLogs : List JobLogRec
  jobArtifacts : List JobArtifactRec
  deriving DecidableEq, Repr

/-- The ids of the org's jobs (`jobIds` in the handler). -/
def orgJobIds (db : Db) (org : OrgRec) : List String :=
  (db.jobs.filter (fun j => j.orgId == org.id)).map (fun j => j.id)

/-- Delete the org's job logs, job artifacts and jobs (skipped when it has no
jobs, as the `jobIds.length > 0` guard does). -/
def purgeJobs (db : Db) (org : OrgRec) : Db :=
  if (orgJobIds db org).isEmpty then db
  else
    { db with
      jobLogs := db.jobLogs.filter (fun l => !(orgJobIds db org).contains l.jobId),
      jobArtifacts := db.jobArtifacts.filter (fun a => !(orgJobIds db org).contains a.jobId),
      jobs := db.jobs.filter (fun j => !(j.orgId == org.id)) }

/-- The deletion block of the handler: the jobs first, then the org itself. -/
def purgeOrg (db : Db) (org : OrgRec) : Db :=
  { purgeJobs db org with
    orgs := (purgeJobs db org).orgs.filter (fun o => !(o.id == org.id)) }

/-- The `DELETE /api/orgs/:orgId` handler: look up the org scoped to the
account (404 when absent), refuse with 409 while any job of the org is
`queued` or `running`, otherwise purge the org.  Result: the HTTP status and
the database afterwards. -/
def deleteOrgHandler (db : Db) (accountId orgId : String) : Nat × Db :=
  match db.orgs.find? (fun o => o.id == orgId && o.accountId == accountId) with
  | none => (404, db)
  | some org =>
    let activeJobs :=
      (db.jobs.filter (fun j =>
        j.orgId == org.id && (j.status == "queued" || j.status == "running"))).length
    if 0 < activeJobs then (409, db)
    else (200, purgeOrg db org)

/-! ### C9 : active jobs block disconnection -/

/-- C9: when the org exists for the account and some of its jobs is `queued`
or `running`, the request is answered 409 and the database — the org and all
its jobs included — is unchanged; when no such job exists the deletion
succeeds with 200, the org is gone and no job of it remains. -/
lemma purgeJobs_orgs (db : Db) (org : OrgRec) : (purgeJobs db org).orgs = db.orgs := by
  unfold purgeJobs
  split <;> rfl

lemma purgeOrg_no_org (db : Db) (org : OrgRec) :
    ∀ o ∈ (purgeOrg db org).orgs, o.id ≠ org.id := by
  intro o ho
  have horgs : (purgeOrg db org).orgs = db.orgs.filter (fun o => !(o.id == org.id)) := by
    unfold purgeOrg
    rw [purgeJobs_orgs]
  rw [horgs] at ho
  have hpred := (List.mem_filter.mp ho).2
  simpa using hpred

lemma purgeOrg_no_jobs (db : Db) (org : OrgRec) :
    ∀ j ∈ (purgeOrg db org).jobs, j.orgId ≠ org.id := by
  intro j hj hjo
  have hj1 : j ∈ (purgeJobs db org).jobs := hj
  unfold purgeJobs at hj1
  by_cases hie : (orgJobIds db org).isEmpty
  · rw [if_pos hie] at hj1
    have hnil : db.jobs.filter (fun j => j.orgId == org.id) = [] := by
      simpa [orgJobIds, List.isEmpty_iff, List.map_eq_nil_iff] using hie
    have : j ∈ db.jobs.filter (fun j => j.orgId == org.id) :=
      List.mem_filter.mpr ⟨hj1, by simp [hjo]⟩
    rw [hnil] at this
    exact absurd this (List.not_mem_nil j)
  · rw [if_neg hie] at hj1
    have hpred := (List.mem_filter.mp hj1).2
    simp only [Bool.not_eq_true', beq_eq_false_iff_ne, ne_eq] at hpred
    exact hpred hjo

theorem disconnect_org_guard (db : Db) (accountId orgId : String) (org : OrgRec)
    (hfind : db.orgs.find? (fun o => o.id == orgId && o.accountId == accountId)
      = some org) :
    ((∃ j ∈ db.jobs, j.orgId = org.id ∧ (j.status = "queued" ∨ j.status = "running")) →
      deleteOrgHandler db accountId orgId = (409, db)) ∧
    ((∀ j ∈ db.jobs, j.orgId = org.id → ¬(j.status = "queued" ∨ j.status = "running")) →
      (deleteOrgHandler db accountId orgId).1 = 200 ∧
      (∀ o ∈ (deleteOrgHandler db accountId orgId).2.orgs, o.id ≠ org.id) ∧
      (∀ j ∈ (deleteOrgHandler db accountId orgId).2.jobs, j.orgId ≠ org.id)) := by
  constructor
  · rintro ⟨j, hj, hjo, hjs⟩
    have hmem : j ∈ db.jobs.filter (fun j =>
        j.orgId == org.id && (j.status == "queued" || j.status == "running")) := by
      rw [List.mem_filter]
      refine ⟨hj, ?_⟩
      simp only [Bool.and_eq_true, Bool.or_eq_true, beq_iff_eq]
      exact ⟨hjo, hjs⟩
    have hpos : 0 < (db.jobs.filter (fun j =>
        j.orgId == org.id && (j.status == "queued" || j.status == "running"))).length :=
      List.length_pos.mpr (List.ne_nil_of_mem hmem)
    simp only [deleteOrgHandler, hfind, if_pos hpos]
  · intro hnone
    have hempty : db.jobs.filter (fun j =>
        j.orgId == org.id && (j.status == "queued" || j.status == "running")) = [] := by
      rw [List.filter_eq_nil_iff]
      intro j hj
      simp only [Bool.and_eq_true, Bool.or_eq_true, beq_iff_eq, not_and, not_or]
      intro hjo
      have := hnone j hj hjo
      tauto
    have hred : deleteOrgHandler db accountId orgId = (200, purgeOrg db org) := by
      simp [deleteOrgHandler, hfind, hempty]
    rw [hred]
    exact ⟨rfl, purgeOrg_no_org db org, purgeOrg_no_jobs db org⟩

/-- Witness for `disconnect_org_guard`: an org with one running job is
refused with a conflict and nothing is deleted. -/
theorem disconnect_org_guard_witness :
    (⟨[⟨"o1", "a1"⟩], [⟨"j1", "o1", "running"⟩], [], []⟩ : Db).orgs.find?
        (fun o => o.id == "o1" && o.accountId == "a1") = some ⟨"o1", "a1"⟩ ∧
    deleteOrgHandler ⟨[⟨"o1", "a1"⟩], [⟨"j1", "o1", "running"⟩], [], []⟩ "a1" "o1"
      = (409, ⟨[⟨"o1", "a1"⟩], [⟨"j1", "o1", "running"⟩], [], []⟩) :=
  ⟨by decide,
    (disconnect_org_guard ⟨[⟨"o1", "a1"⟩], [⟨"j1", "o1", "running"⟩], [], []⟩
        "a1" "o1" ⟨"o1", "a1"⟩ (by decide)).1
      ⟨⟨"j1", "o1", "running"⟩, by decide, by decide, Or.inr (by decide)⟩⟩

end ForceClaw
